import Mathlib

/-
Verification of the biji-mcp knowledge-base client against its specification.

The development shallowly embeds the Python sources:
  * src/biji_mcp/client.py  (stream decoder, recall decoding, HTTP failure mapping)
  * src/biji_mcp/config.py  (knowledge-base name resolution)
  * src/biji_mcp/tools.py   (Markdown formatting of search results)

JSON values are modelled by an inductive `Json`; numbers are rationals
(the modelled grammar covers integers and decimal fractions, without
exponents; string escapes are outside the modelled subset, so a payload
using them is treated as undecodable).  A Python exception raised while
decoding is modelled by `Option`/`Except` failure (`none` / `.error`).
-/

namespace Biji

/-- JSON values.  Objects keep their fields as an ordered association list. -/
inductive Json where
  | null
  | bool (b : Bool)
  | num (q : Rat)
  | str (s : String)
  | arr (elems : List Json)
  | obj (fields : List (String × Json))

/-- Python `dict.get(key)`: the value stored under `key`, if any.  JSON
object decoding keeps the last duplicate key, as `json.loads` does. -/
def jget (fields : List (String × Json)) (key : String) : Option Json :=
  match fields with
  | [] => none
  | (k, v) :: rest =>
    match jget rest key with
    | some w => some w
    | none => if k == key then some v else none

/-- Python `dict.get(key, d)`: lookup with a default. -/
def jgetD (fields : List (String × Json)) (key : String) (d : Json) : Json :=
  (jget fields key).getD d

/-- Python `v == n` for an `int` literal `n`: numbers compare by value and
`bool` compares as 0/1; every other value (including `None` for a missing
key) is unequal. -/
def pyEqNum (v : Option Json) (n : Rat) : Bool :=
  match v with
  | some (Json.num m) => m == n
  | some (Json.bool b) => (if b then (1 : Rat) else 0) == n
  | _ => false

/-- Python iteration `for x in v`: lists yield elements, strings yield
one-character strings, dicts yield their keys; other values raise
`TypeError` (modelled by `none`). -/
def pyIter : Json → Option (List Json)
  | Json.arr xs => some xs
  | Json.str s => some (s.toList.map (fun c => Json.str (String.mk [c])))
  | Json.obj fields => some (fields.map (fun p => Json.str p.1))
  | _ => none

/-- Python `"".join(parts)`: concatenation in order; raises `TypeError`
(modelled by `none`) unless every part is a string. -/
def pyJoinStr : List Json → Option String
  | [] => some ""
  | Json.str s :: rest => (pyJoinStr rest).map (fun t => s ++ t)
  | _ => none

/-- Substring containment, Python `needle in hay` on strings. -/
def strContainsSub (hay needle : String) : Bool :=
  decide (needle.toList <:+: hay.toList)

/-- Python `s.startswith(p)`, as a test on the character lists. -/
def strStartsWith (s p : String) : Bool :=
  p.toList.isPrefixOf s.toList

/-- Python `key in v` for a string `key`: dict key membership, list element
membership, string substring test; other values raise `TypeError`. -/
def pyContainsKey (container : Json) (key : String) : Option Bool :=
  match container with
  | Json.obj fields => some (fields.any (fun p => p.1 == key))
  | Json.arr xs =>
    some (xs.any (fun x => match x with | Json.str s => s == key | _ => false))
  | Json.str s => some (strContainsSub s key)
  | _ => none

/-- Python `v[key]` for a string `key`: dict indexing; lists and strings
raise `TypeError` for a string index, and so does every other value. -/
def pyIndexStr (container : Json) (key : String) : Option Json :=
  match container with
  | Json.obj fields => jget fields key
  | _ => none

/-! ### JSON parsing (`json.loads` on the modelled subset) -/

/-- Drop leading JSON whitespace. -/
def skipWs : List Char → List Char
  | [] => []
  | c :: rest =>
    if c == ' ' || c == '\t' || c == '\n' || c == '\r' then skipWs rest
    else c :: rest

/-- Split a leading run of decimal digits from the input. -/
def takeDigits : List Char → List Char × List Char
  | [] => ([], [])
  | c :: rest =>
    if c.isDigit then
      let p := takeDigits rest
      (c :: p.1, p.2)
    else ([], c :: rest)

/-- Numeric value of a digit string. -/
def digitsToNat (ds : List Char) : Nat :=
  ds.foldl (fun acc c => acc * 10 + (c.toNat - 48)) 0

/-- Characters of a JSON string body up to the closing quote.  Escape
sequences are outside the modelled subset and make the parse fail. -/
def takeStrChars : List Char → Option (List Char × List Char)
  | [] => none
  | c :: rest =>
    if c == '"' then some ([], rest)
    else if c == '\\' then none
    else (takeStrChars rest).map (fun p => (c :: p.1, p.2))

/-- Parse a JSON number (integer or decimal fraction, optional minus sign,
no leading zeros, no exponent). -/
def parseNumToken (input : List Char) : Option (Json × List Char) :=
  let p : Bool × List Char :=
    match input with
    | '-' :: r => (true, r)
    | _ => (false, input)
  let neg := p.1
  let ds := (takeDigits p.2).1
  let r1 := (takeDigits p.2).2
  if ds.isEmpty then none
  else if ds.length > 1 && ds.headD '0' == '0' then none
  else
    match r1 with
    | '.' :: r2 =>
      let fs := (takeDigits r2).1
      let r3 := (takeDigits r2).2
      if fs.isEmpty then none
      else
        let numer : Nat := digitsToNat ds * 10 ^ fs.length + digitsToNat fs
        let q : Rat := mkRat (numer : Int) (10 ^ fs.length)
        some (Json.num (if neg then -q else q), r3)
    | _ =>
      let q : Rat := (digitsToNat ds : Rat)
      some (Json.num (if neg then -q else q), r1)

/-- Parse one JSON value from the input; `fuel` bounds the recursion depth.
After an element of an array (respectively a member of an object) and a
comma, the remaining elements are parsed as the array (object) that starts
at the reopened bracket. -/
def parseVal : Nat → List Char → Option (Json × List Char)
  | 0, _ => none
  | _ + 1, [] => none
  | fuel + 1, c :: rest =>
    if c == '"' then
      (takeStrChars rest).map (fun p => (Json.str (String.mk p.1), p.2))
    else if c == '[' then
      match skipWs rest with
      | ']' :: r => some (Json.arr [], r)
      | body =>
        match parseVal fuel body with
        | none => none
        | some (v, r) =>
          match skipWs r with
          | ']' :: r2 => some (Json.arr [v], r2)
          | ',' :: r2 =>
            match skipWs r2 with
            | ']' :: _ => none
            | _ =>
              match parseVal fuel ('[' :: r2) with
              | some (Json.arr vs, r3) => some (Json.arr (v :: vs), r3)
              | _ => none
          | _ => none
    else if c == '{' then
      match skipWs rest with
      | '}' :: r => some (Json.obj [], r)
      | '"' :: kr =>
        match takeStrChars kr with
        | none => none
        | some (key, r1) =>
          match skipWs r1 with
          | ':' :: r2 =>
            match parseVal fuel (skipWs r2) with
            | none => none
            | some (v, r3) =>
              match skipWs r3 with
              | '}' :: r4 => some (Json.obj [(String.mk key, v)], r4)
              | ',' :: r4 =>
                match skipWs r4 with
                | '}' :: _ => none
                | _ =>
                  match parseVal fuel ('{' :: r4) with
                  | some (Json.obj ms, r5) => some (Json.obj ((String.mk key, v) :: ms), r5)
                  | _ => none
              | _ => none
          | _ => none
      | _ => none
    else if c == 't' then
      match rest with
      | 'r' :: 'u' :: 'e' :: r => some (Json.bool true, r)
      | _ => none
    else if c == 'f' then
      match rest with
      | 'a' :: 'l' :: 's' :: 'e' :: r => some (Json.bool false, r)
      | _ => none
    else if c == 'n' then
      match rest with
      | 'u' :: 'l' :: 'l' :: r => some (Json.null, r)
      | _ => none
    else parseNumToken (c :: rest)

/-- Parse a complete JSON document, Python `json.loads`: one value with
only whitespace around it, `none` on any parse failure. -/
def Json.parse (s : String) : Option Json :=
  match parseVal (s.length + 1) (skipWs s.toList) with
  | some (v, rest) => if skipWs rest == [] then some v else none
  | none => none

/-! ### client.py: data model -/

/-- Error raised for transport and HTTP failures (`BijiAPIError`). -/
structure BijiAPIError where
  status_code : Nat
  message : String
deriving DecidableEq

/-- One raw recalled snippet (`RecallResult`).  `from_api` stores the
field values exactly as found, so the fields are arbitrary JSON values. -/
structure RecallResult where
  id : Json
  title : Json
  content : Json
  score : Json
  type : Json
  recall_source : Json

/-- Decode one element of `data.results` (`RecallResult.from_api`).
Missing fields take the permissive defaults; a non-object element makes
the `.get` attribute access raise, modelled by `none`. -/
def RecallResult.from_api (data : Json) : Option RecallResult :=
  match data with
  | Json.obj fields =>
    some { id := jgetD fields "id" (Json.str "")
           title := jgetD fields "title" (Json.str "")
           content := jgetD fields "content" (Json.str "")
           score := jgetD fields "score" (Json.num 0)
           type := jgetD fields "type" (Json.str "NOTE")
           recall_source := jgetD fields "recall_source" (Json.str "") }
  | _ => none

/-- One citation backing an AI answer (`Reference`). -/
structure Reference where
  title : Json
  content : Json

/-- Decode one element of a `refs` array (`Reference.from_api`); a
non-object element makes the `.get` attribute access raise. -/
def Reference.from_api (data : Json) : Option Reference :=
  match data with
  | Json.obj fields =>
    some { title := jgetD fields "title" (Json.str "")
           content := jgetD fields "content" (Json.str "") }
  | _ => none

/-- The assembled result of a streaming search (`SearchResult`). -/
structure SearchResult where
  answer : String
  references : List Reference
  thinking : Option String

/-! ### client.py: recall decoding (`BijiClient.recall`, lines 142-147) -/

/-- Decode every element of the `results` array in order; the first
non-object element raises. -/
def recallFrom : List Json → Option (List RecallResult)
  | [] => some []
  | x :: rest =>
    match RecallResult.from_api x with
    | some r => (recallFrom rest).map (fun rs => r :: rs)
    | none => none

/-- Body of `BijiClient.recall` after the POST: if the response contains
`data` and `response["data"]` contains `results`, decode each element of
`response["data"]["results"]`; otherwise return the empty list.  `none`
models a raised `TypeError`/`AttributeError` (non-container membership
test, string index on a non-dict, non-iterable results, non-dict
element). -/
def recallResults (response : Json) : Option (List RecallResult) :=
  match pyContainsKey response "data" with
  | none => none
  | some false => some []
  | some true =>
    match pyIndexStr response "data" with
    | none => none
    | some d =>
      match pyContainsKey d "results" with
      | none => none
      | some false => some []
      | some true =>
        match pyIndexStr d "results" with
        | none => none
        | some rs =>
          match pyIter rs with
          | none => none
          | some items => recallFrom items

/-! ### client.py: stream decoder (`BijiClient.search`, lines 205-252) -/

/-- The payload carried by one stream line: the JSON after the
`"data: "` prefix, `none` when the prefix is missing or the JSON is
invalid (both are skipped by the loop, lines 210-216). -/
def linePayload (l : String) : Option Json :=
  if strStartsWith l "data: " then Json.parse (l.drop 6) else none

/-- The dispatch of the decoding loop on `msg_type` (lines 218-246):
answer fragment, reasoning fragment, citation batch, stream-complete, or
unrecognized.  Python `==` treats booleans as 0/1. -/
inductive EventKind where
  | answer (content : Json)
  | thinking (content : Json)
  | citations (refsVal : Json)
  | done
  | other

/-- Classify a decoded payload object exactly as the loop's
`if`/`elif` chain does, extracting `content` (default `""`) or `refs`
(default `[]`). -/
def classify (fields : List (String × Json)) : EventKind :=
  let mt := jget fields "msg_type"
  if pyEqNum mt 1 then EventKind.answer (jgetD fields "content" (Json.str ""))
  else if pyEqNum mt 21 then EventKind.thinking (jgetD fields "content" (Json.str ""))
  else if pyEqNum mt 105 then EventKind.citations (jgetD fields "refs" (Json.arr []))
  else if pyEqNum mt 3 then EventKind.done
  else EventKind.other

/-- Accumulators of the decoding loop. -/
structure StreamState where
  answer_parts : List Json
  thinking_parts : List Json
  references : List Reference

/-- Decode every element of a `refs` batch in order. -/
def refsFrom : List Json → Option (List Reference)
  | [] => some []
  | x :: rest =>
    match Reference.from_api x with
    | some r => (refsFrom rest).map (fun rs => r :: rs)
    | none => none

/-- The decoding loop of `BijiClient.search`: consume lines in order,
skipping lines with no decodable payload, dispatching on `msg_type`, and
stopping at the first stream-complete event.  `none` models a raised
exception (`.get` on a non-object payload, iterating a non-iterable
`refs`, `.get` on a non-object citation). -/
def searchLoop : StreamState → List String → Option StreamState
  | st, [] => some st
  | st, line :: rest =>
    match linePayload line with
    | none => searchLoop st rest
    | some (Json.obj fields) =>
      match classify fields with
      | EventKind.answer c =>
        searchLoop { st with answer_parts := st.answer_parts ++ [c] } rest
      | EventKind.thinking c =>
        searchLoop { st with thinking_parts := st.thinking_parts ++ [c] } rest
      | EventKind.citations refsVal =>
        match pyIter refsVal with
        | none => none
        | some items =>
          match refsFrom items with
          | none => none
          | some refs =>
            searchLoop { st with references := st.references ++ refs } rest
      | EventKind.done => some st
      | EventKind.other => searchLoop st rest
    | some _ => none

/-- `BijiClient.search` as a function of the lines the stream yields:
the loop accumulates from empty state, and the final `SearchResult` joins
the answer parts, keeps the citations, and joins the reasoning parts only
when at least one arrived (lines 248-252).  The line iterator of
`_stream_post` yields only non-empty lines (modelled in
`streamPostOutcome`); an empty line would be skipped by the loop anyway,
since it does not carry the `"data: "` prefix. -/
def search (lines : List String) : Option SearchResult :=
  match searchLoop ⟨[], [], []⟩ lines with
  | none => none
  | some st =>
    match pyJoinStr st.answer_parts with
    | none => none
    | some ans =>
      if st.thinking_parts.isEmpty then
        some ⟨ans, st.references, none⟩
      else
        match pyJoinStr st.thinking_parts with
        | none => none
        | some th => some ⟨ans, st.references, some th⟩

/-! ### Spec-side view of the stream (for comparison with the loop)

The specification describes the final outcome directly: the answer is the
concatenation, in arrival order, of the `content` fields of the
`msg_type=1` events up to the first stream-complete event, the references
are the decoded citations of the `msg_type=105` events in arrival order,
and the reasoning text collects the `msg_type=21` events.  The following
functions state that reading, line by line, without an accumulator. -/

/-- Content fields of the answer-fragment events, in arrival order, up to
the first stream-complete event. -/
def answerFragments : List String → List Json
  | [] => []
  | l :: rest =>
    match linePayload l with
    | some (Json.obj fields) =>
      match classify fields with
      | EventKind.answer c => c :: answerFragments rest
      | EventKind.done => []
      | _ => answerFragments rest
    | _ => answerFragments rest

/-- Content fields of the reasoning-fragment events, in arrival order, up
to the first stream-complete event. -/
def thinkingFragments : List String → List Json
  | [] => []
  | l :: rest =>
    match linePayload l with
    | some (Json.obj fields) =>
      match classify fields with
      | EventKind.thinking c => c :: thinkingFragments rest
      | EventKind.done => []
      | _ => thinkingFragments rest
    | _ => thinkingFragments rest

/-- Decoded citations of the citation-batch events, in arrival order, up
to the first stream-complete event. -/
def citationsOf : List String → Option (List Reference)
  | [] => some []
  | l :: rest =>
    match linePayload l with
    | some (Json.obj fields) =>
      match classify fields with
      | EventKind.citations refsVal =>
        match pyIter refsVal with
        | none => none
        | some items =>
          match refsFrom items with
          | none => none
          | some refs => (citationsOf rest).map (fun others => refs ++ others)
      | EventKind.done => some []
      | _ => citationsOf rest
    | _ => citationsOf rest

/-- A line carrying a stream-complete event. -/
def isDoneLine (l : String) : Bool :=
  match linePayload l with
  | some (Json.obj fields) =>
    match classify fields with
    | EventKind.done => true
    | _ => false
  | _ => false

/-! ### client.py: transport failure mapping (`_post` lines 89-102, `_stream_post` lines 160-177) -/

/-- Outcome of the underlying HTTP attempt: a timeout, another transport
failure, or a response with a status code and a body text. -/
inductive TransportOutcome where
  | timeout
  | request_error (detail : String)
  | response (status : Nat) (body : String)

/-- The fixed 401 message of `_post` and `_stream_post`. -/
def msg401 : String := "Token无效，请检查配置"

/-- The fixed 429 message of `_post` and `_stream_post`. -/
def msg429 : String := "超出API调用限制(QPS=2)，请稍后重试"

/-- The fixed timeout message. -/
def msgTimeout : String := "请求超时，请稍后重试"

/-- The network-error message with its detail text. -/
def msgNetwork (detail : String) : String := "网络错误: " ++ detail

/-- Failure mapping of `BijiClient._post`: transport exceptions first,
then 401, then 429, then any other status at least 400; a passing
response hands its body to the caller. -/
def postOutcome : TransportOutcome → Except BijiAPIError String
  | TransportOutcome.timeout => Except.error ⟨0, msgTimeout⟩
  | TransportOutcome.request_error e => Except.error ⟨0, msgNetwork e⟩
  | TransportOutcome.response status body =>
    if status == 401 then Except.error ⟨401, msg401⟩
    else if status == 429 then Except.error ⟨429, msg429⟩
    else if status ≥ 400 then Except.error ⟨status, body⟩
    else Except.ok body

/-- Failure mapping of `BijiClient._stream_post`: the same checks, then
the response body is yielded line by line, skipping empty lines. -/
def streamPostOutcome : TransportOutcome → Except BijiAPIError (List String)
  | TransportOutcome.timeout => Except.error ⟨0, msgTimeout⟩
  | TransportOutcome.request_error e => Except.error ⟨0, msgNetwork e⟩
  | TransportOutcome.response status body =>
    if status == 401 then Except.error ⟨401, msg401⟩
    else if status == 429 then Except.error ⟨429, msg429⟩
    else if status ≥ 400 then Except.error ⟨status, body⟩
    else Except.ok ((body.splitOn "\n").filter (fun l => l != ""))

/-- `BijiClient.recall` end to end: `_post`, then `response.json()`, then
the `data.results` decoding.  The inner `none` models an exception that
is not a `BijiAPIError` (undecodable body, unexpected shape). -/
def recallOp (t : TransportOutcome) : Except BijiAPIError (Option (List RecallResult)) :=
  match postOutcome t with
  | Except.error e => Except.error e
  | Except.ok body => Except.ok ((Json.parse body).bind recallResults)

/-- `BijiClient.search` end to end: `_stream_post`, then the stream
decoding loop over the yielded lines. -/
def searchOp (t : TransportOutcome) : Except BijiAPIError (Option SearchResult) :=
  match streamPostOutcome t with
  | Except.error e => Except.error e
  | Except.ok lines => Except.ok (search lines)

/-! ### config.py: knowledge-base name resolution -/

/-- One configured knowledge base (`KnowledgeBase`). -/
structure KnowledgeBase where
  token : String
  topic_id : String
  description : Option String
deriving DecidableEq

/-- Global settings (`Settings`). -/
structure Settings where
  default_top_k : Nat := 10
  timeout : Nat := 30
deriving DecidableEq

/-- The loaded configuration (`Config`): named knowledge bases (a dict,
kept in insertion order with unique names), the default name, settings. -/
structure Config where
  knowledge_bases : List (String × KnowledgeBase)
  default : String
  settings : Settings := {}
deriving DecidableEq

/-- Error raised by `find_knowledge_base` (`ConfigError`), with the list
of names that its message enumerates: for an ambiguous name the matching
names, for an unknown name all configured names, each joined with
a comma as in the source. -/
inductive KBError where
  | ambiguous (name : String) (matched_names : String)
  | not_found (name : String) (available : String)
deriving DecidableEq

/-- Comma-joined names, `", ".join(...)` over the keys. -/
def joinedNames (kbs : List (String × KnowledgeBase)) : String :=
  String.intercalate ", " (kbs.map (fun p => p.1))

/-- The fuzzy matches of a requested name: the configured entries whose
name contains it as a substring (config.py lines 136-140). -/
def matchesOf (config : Config) (name : String) : List (String × KnowledgeBase) :=
  config.knowledge_bases.filter (fun p => strContainsSub p.1 name)

/-- `find_knowledge_base`: default substitution, exact key match,
substring match with the one-match/many-match/no-match outcomes
(config.py lines 128-151). -/
def find_knowledge_base (config : Config) (name? : Option String) :
    Except KBError (String × KnowledgeBase) :=
  let name := name?.getD config.default
  match List.lookup name config.knowledge_bases with
  | some kb => Except.ok (name, kb)
  | none =>
    match matchesOf config name with
    | [m] => Except.ok m
    | [] => Except.error (KBError.not_found name (joinedNames config.knowledge_bases))
    | ms => Except.error (KBError.ambiguous name (joinedNames ms))

/-! ### tools.py: search-result formatting -/

/-- Python `"\n".join(lines)`. -/
def joinLines : List String → String
  | [] => ""
  | [l] => l
  | l :: rest => l ++ "\n" ++ joinLines rest

/-- One numbered citation line of `format_search_result` (tools.py line
33): bold title, content truncated to 100 characters with an ellipsis.
The model covers string-valued citation fields; with any other value the
slice expression raises, modelled by `none`. -/
def refLine (i : Nat) (ref : Reference) : Option String :=
  match ref.title, ref.content with
  | Json.str t, Json.str c =>
    some (toString i ++ ". **" ++ t ++ "** - \"" ++
      (c.take 100) ++ (if c.length > 100 then "..." else "") ++ "\"")
  | _, _ => none

/-- The citation lines, numbered from `i`. -/
def refLinesFrom (i : Nat) : List Reference → Option (List String)
  | [] => some []
  | ref :: rest =>
    match refLine i ref with
    | none => none
    | some l => (refLinesFrom (i + 1) rest).map (fun ls => l :: ls)

/-- `format_search_result` (tools.py lines 24-41): answer section, then a
citation section when the list is non-empty, then a reasoning section
when `thinking` is truthy (present and non-empty). -/
def format_search_result (result : SearchResult) : Option String :=
  let lines0 : List String := ["## 答案\n", result.answer, ""]
  let lines1? : Option (List String) :=
    if result.references.isEmpty then some lines0
    else (refLinesFrom 1 result.references).map
      (fun rl => lines0 ++ ["## 引用来源\n"] ++ rl ++ [""])
  match lines1? with
  | none => none
  | some lines1 =>
    let lines2 : List String :=
      match result.thinking with
      | some th => if th = "" then lines1 else lines1 ++ ["## 思考过程\n", th, ""]
      | none => lines1
    some (joinLines lines2)

/-! ## Theorems -/

/-- The decoding loop computes exactly the spec-side view: starting from
state `st`, a successful run appends the answer fragments, the reasoning
fragments and the decoded citations of the consumed region. -/
theorem searchLoop_eq (lines : List String) : ∀ st st',
    searchLoop st lines = some st' →
    st'.answer_parts = st.answer_parts ++ answerFragments lines ∧
    st'.thinking_parts = st.thinking_parts ++ thinkingFragments lines ∧
    ∃ refs, citationsOf lines = some refs ∧ st'.references = st.references ++ refs := by
  induction lines with
  | nil =>
    intro st st' h
    simp only [searchLoop] at h
    cases h
    simp [answerFragments, thinkingFragments, citationsOf]
  | cons l rest ih =>
    intro st st' h
    simp only [searchLoop] at h
    cases hpl : linePayload l with
    | none =>
      rw [hpl] at h
      simp only at h
      obtain ⟨h1, h2, refs, hr, h3⟩ := ih _ _ h
      simp [answerFragments, thinkingFragments, citationsOf, hpl, h1, h2, hr, h3]
    | some v =>
      rw [hpl] at h
      cases v with
      | obj fields =>
        simp only at h
        cases hc : classify fields with
        | answer c =>
          rw [hc] at h
          simp only at h
          obtain ⟨h1, h2, refs, hr, h3⟩ := ih _ _ h
          simp only [answerFragments, thinkingFragments, citationsOf, hpl, hc, h1, h2, hr, h3]
          refine ⟨by simp, by simp, refs, rfl, by simp⟩
        | thinking c =>
          rw [hc] at h
          simp only at h
          obtain ⟨h1, h2, refs, hr, h3⟩ := ih _ _ h
          simp only [answerFragments, thinkingFragments, citationsOf, hpl, hc, h1, h2, hr, h3]
          refine ⟨by simp, by simp, refs, rfl, by simp⟩
        | citations refsVal =>
          rw [hc] at h
          simp only at h
          cases hit : pyIter refsVal with
          | none => rw [hit] at h; simp at h
          | some items =>
            rw [hit] at h
            simp only at h
            cases hrf : refsFrom items with
            | none => rw [hrf] at h; simp at h
            | some refs1 =>
              rw [hrf] at h
              simp only at h
              obtain ⟨h1, h2, refs, hr, h3⟩ := ih _ _ h
              simp only [answerFragments, thinkingFragments, citationsOf, hpl, hc, hit, hrf,
                h1, h2, hr, h3]
              refine ⟨by simp, by simp, refs1 ++ refs, rfl, by simp⟩
        | done =>
          rw [hc] at h
          simp only at h
          cases h
          simp [answerFragments, thinkingFragments, citationsOf, hpl, hc]
        | other =>
          rw [hc] at h
          simp only at h
          obtain ⟨h1, h2, refs, hr, h3⟩ := ih _ _ h
          simp [answerFragments, thinkingFragments, citationsOf, hpl, hc, h1, h2, hr, h3]
      | null => simp at h
      | bool b => simp at h
      | num q => simp at h
      | str s => simp at h
      | arr xs => simp at h

/-- Characterization of a successful `search`: the answer is the joined
answer fragments, the references are the decoded citations, and the
reasoning text is absent when no reasoning fragment arrived and the join
of the fragments otherwise. -/
theorem search_eq (lines : List String) (r : SearchResult) (h : search lines = some r) :
    pyJoinStr (answerFragments lines) = some r.answer ∧
    citationsOf lines = some r.references ∧
    ((thinkingFragments lines = [] ∧ r.thinking = none) ∨
     (thinkingFragments lines ≠ [] ∧
       ∃ t, pyJoinStr (thinkingFragments lines) = some t ∧ r.thinking = some t)) := by
  unfold search at h
  cases hloop : searchLoop ⟨[], [], []⟩ lines with
  | none => rw [hloop] at h; simp at h
  | some st =>
    rw [hloop] at h
    simp only at h
    obtain ⟨h1, h2, refs, hr, h3⟩ := searchLoop_eq lines _ _ hloop
    simp only [List.nil_append] at h1 h2 h3
    cases hja : pyJoinStr st.answer_parts with
    | none => rw [hja] at h; simp at h
    | some ans =>
      rw [hja] at h
      simp only at h
      by_cases hemp : st.thinking_parts.isEmpty
      · rw [if_pos hemp] at h
        cases h
        rw [List.isEmpty_iff] at hemp
        refine ⟨by rw [← h1]; exact hja,
          by show citationsOf lines = some st.references; rw [hr, h3],
          Or.inl ⟨by rw [← h2, hemp], rfl⟩⟩
      · rw [if_neg hemp] at h
        cases hjt : pyJoinStr st.thinking_parts with
        | none => rw [hjt] at h; simp at h
        | some th =>
          rw [hjt] at h
          simp only at h
          cases h
          rw [List.isEmpty_iff] at hemp
          refine ⟨by rw [← h1]; exact hja,
            by show citationsOf lines = some st.references; rw [hr, h3],
            Or.inr ⟨by rw [← h2]; exact hemp, th, by rw [← h2]; exact hjt, rfl⟩⟩

/-- Once the loop meets a stream-complete line it stops, so appending
lines after one changes nothing. -/
theorem searchLoop_append_of_done : ∀ (lines junk : List String) (st : StreamState),
    lines.any isDoneLine = true → searchLoop st (lines ++ junk) = searchLoop st lines := by
  intro lines
  induction lines with
  | nil => intro junk st h; simp at h
  | cons l rest ih =>
    intro junk st h
    rw [List.any_cons] at h
    simp only [List.cons_append, searchLoop]
    cases hpl : linePayload l with
    | none =>
      have hd : isDoneLine l = false := by simp [isDoneLine, hpl]
      rw [hd] at h
      simp only [Bool.false_or] at h
      simp only
      exact ih junk st h
    | some v =>
      cases v with
      | obj fields =>
        simp only
        cases hc : classify fields with
        | answer c =>
          have hd : isDoneLine l = false := by simp [isDoneLine, hpl, hc]
          rw [hd] at h
          simp only [Bool.false_or] at h
          exact ih junk _ h
        | thinking c =>
          have hd : isDoneLine l = false := by simp [isDoneLine, hpl, hc]
          rw [hd] at h
          simp only [Bool.false_or] at h
          exact ih junk _ h
        | citations refsVal =>
          have hd : isDoneLine l = false := by simp [isDoneLine, hpl, hc]
          rw [hd] at h
          simp only [Bool.false_or] at h
          simp only
          cases hit : pyIter refsVal with
          | none => rfl
          | some items =>
            simp only
            cases hrf : refsFrom items with
            | none => rfl
            | some refs1 => simp only; exact ih junk _ h
        | done => rfl
        | other =>
          have hd : isDoneLine l = false := by simp [isDoneLine, hpl, hc]
          rw [hd] at h
          simp only [Bool.false_or] at h
          exact ih junk _ h
      | null => rfl
      | bool b => rfl
      | num q => rfl
      | str s => rfl
      | arr xs => rfl

/-- Removing the lines without a decodable payload does not change the
run of the loop. -/
theorem searchLoop_skip_filter : ∀ (lines : List String) (st : StreamState),
    searchLoop st (lines.filter (fun l => (linePayload l).isSome)) = searchLoop st lines := by
  intro lines
  induction lines with
  | nil => intro st; rfl
  | cons l rest ih =>
    intro st
    cases hpl : linePayload l with
    | none =>
      rw [List.filter_cons]
      simp only [hpl, Option.isSome_none]
      simp only [searchLoop, hpl]
      exact ih st
    | some v =>
      rw [List.filter_cons]
      simp only [hpl, Option.isSome_some, if_pos]
      simp only [searchLoop, hpl]
      cases v with
      | obj fields =>
        simp only
        cases hc : classify fields with
        | answer c => simp only; exact ih _
        | thinking c => simp only; exact ih _
        | citations refsVal =>
          simp only
          cases hit : pyIter refsVal with
          | none => rfl
          | some items =>
            simp only
            cases hrf : refsFrom items with
            | none => rfl
            | some refs1 => simp only; exact ih _
        | done => rfl
        | other => simp only; exact ih _
      | null => rfl
      | bool b => rfl
      | num q => rfl
      | str s => rfl
      | arr xs => rfl

/-- C1: for every stream consumed by the search operation, the outcome's
answer is the concatenation, in arrival order, of the `content` fields of
the `msg_type=1` events (empty if none arrived), and the references are
the decoded citations of the `msg_type=105` events in arrival order; in
particular the four-line example stream yields answer `"AB"`, one
citation with title `"T"` and content `"C"`, and no reasoning text. -/
theorem search_outcome_correct :
    (∀ lines r, search lines = some r →
      pyJoinStr (answerFragments lines) = some r.answer ∧
      citationsOf lines = some r.references) ∧
    search ["data: \x7b\"msg_type\":1,\"content\":\"A\"\x7d",
            "data: \x7b\"msg_type\":1,\"content\":\"B\"\x7d",
            "data: \x7b\"msg_type\":105,\"refs\":[\x7b\"title\":\"T\",\"content\":\"C\"\x7d]\x7d",
            "data: \x7b\"msg_type\":3\x7d"] =
      some ⟨"AB", [⟨Json.str "T", Json.str "C"⟩], none⟩ := by
  constructor
  · intro lines r h
    obtain ⟨ha, hc, -⟩ := search_eq lines r h
    exact ⟨ha, hc⟩
  · rfl

/-- Witness for C1 at the example stream of the claim. -/
theorem search_outcome_correct_witness :
    pyJoinStr (answerFragments
      ["data: \x7b\"msg_type\":1,\"content\":\"A\"\x7d",
       "data: \x7b\"msg_type\":1,\"content\":\"B\"\x7d",
       "data: \x7b\"msg_type\":105,\"refs\":[\x7b\"title\":\"T\",\"content\":\"C\"\x7d]\x7d",
       "data: \x7b\"msg_type\":3\x7d"]) = some "AB" ∧
    citationsOf
      ["data: \x7b\"msg_type\":1,\"content\":\"A\"\x7d",
       "data: \x7b\"msg_type\":1,\"content\":\"B\"\x7d",
       "data: \x7b\"msg_type\":105,\"refs\":[\x7b\"title\":\"T\",\"content\":\"C\"\x7d]\x7d",
       "data: \x7b\"msg_type\":3\x7d"] = some [⟨Json.str "T", Json.str "C"⟩] :=
  search_outcome_correct.1
    ["data: \x7b\"msg_type\":1,\"content\":\"A\"\x7d",
     "data: \x7b\"msg_type\":1,\"content\":\"B\"\x7d",
     "data: \x7b\"msg_type\":105,\"refs\":[\x7b\"title\":\"T\",\"content\":\"C\"\x7d]\x7d",
     "data: \x7b\"msg_type\":3\x7d"]
    ⟨"AB", [⟨Json.str "T", Json.str "C"⟩], none⟩ rfl

/-- C2: a stream with no `msg_type=21` event yields an absent reasoning
text (`none`, not the empty string); with at least one such event the
reasoning text is the join of their `content` fields, so a single
empty-content event yields the present-but-empty string. -/
theorem thinking_presence :
    (∀ lines r, search lines = some r →
      ((r.thinking = none ↔ thinkingFragments lines = []) ∧
       ∀ s, r.thinking = some s → pyJoinStr (thinkingFragments lines) = some s)) ∧
    search ["data: \x7b\"msg_type\":21,\"content\":\"\"\x7d",
            "data: \x7b\"msg_type\":3\x7d"] =
      some ⟨"", [], some ""⟩ := by
  constructor
  · intro lines r h
    obtain ⟨-, -, hth⟩ := search_eq lines r h
    rcases hth with ⟨hfr, hnone⟩ | ⟨hfr, t, hjoin, hsome⟩
    · refine ⟨by simp [hnone, hfr], ?_⟩
      intro s hs
      rw [hnone] at hs
      cases hs
    · refine ⟨by rw [hsome]; simp [hfr], ?_⟩
      intro s hs
      rw [hsome] at hs
      cases hs
      exact hjoin
  · rfl

/-- Witness for C2: the single empty reasoning fragment of the example
stream joins to the present-but-empty string. -/
theorem thinking_presence_witness :
    pyJoinStr (thinkingFragments
      ["data: \x7b\"msg_type\":21,\"content\":\"\"\x7d",
       "data: \x7b\"msg_type\":3\x7d"]) = some "" :=
  (thinking_presence.1
    ["data: \x7b\"msg_type\":21,\"content\":\"\"\x7d",
     "data: \x7b\"msg_type\":3\x7d"]
    ⟨"", [], some ""⟩ rfl).2 "" rfl

/-- C5: lines appended after a stream-complete event contribute nothing:
the outcome over the extended sequence equals the outcome over the
original one. -/
theorem done_truncates (lines junk : List String)
    (h : lines.any isDoneLine = true) :
    search (lines ++ junk) = search lines := by
  unfold search
  rw [searchLoop_append_of_done lines junk _ h]

/-- Witness for C5: junk after a stream-complete line is ignored. -/
theorem done_truncates_witness :
    (["data: \x7b\"msg_type\":3\x7d"].any isDoneLine = true) ∧
    search (["data: \x7b\"msg_type\":3\x7d"] ++
            ["data: \x7b\"msg_type\":1,\"content\":\"Z\"\x7d"]) =
      search ["data: \x7b\"msg_type\":3\x7d"] :=
  ⟨rfl, done_truncates ["data: \x7b\"msg_type\":3\x7d"]
    ["data: \x7b\"msg_type\":1,\"content\":\"Z\"\x7d"] rfl⟩

/-- C6: lines without the `"data: "` prefix and lines whose payload is
not valid JSON are skipped without error, and the outcome equals the
outcome of the sequence with those lines removed. -/
theorem invalid_lines_skipped (lines : List String) :
    search (lines.filter
      (fun l => strStartsWith l "data: " && (Json.parse (l.drop 6)).isSome)) =
    search lines := by
  have hpred : ∀ l ∈ lines,
      (strStartsWith l "data: " && (Json.parse (l.drop 6)).isSome) =
      (linePayload l).isSome := by
    intro l _
    unfold linePayload
    by_cases hs : strStartsWith l "data: " <;> simp [hs]
  unfold search
  rw [List.filter_congr hpred, searchLoop_skip_filter]

/-- C3: exact match is attempted first and wins immediately: a requested
name that is a configured key resolves to that key, whatever else it is a
substring of. -/
theorem exact_match_first (config : Config) (name : String) (kb : KnowledgeBase)
    (h : List.lookup name config.knowledge_bases = some kb) :
    find_knowledge_base config (some name) = Except.ok (name, kb) := by
  unfold find_knowledge_base
  simp only [Option.getD_some]
  rw [h]

/-- Witness for C3: the key `工作` is a substring of two other configured
names and still resolves exactly. -/
theorem exact_match_first_witness :
    List.lookup "工作"
      [("工作", (⟨"t1", "i1", none⟩ : KnowledgeBase)),
       ("工作笔记", ⟨"t2", "i2", none⟩),
       ("工作日志", ⟨"t3", "i3", none⟩)] = some ⟨"t1", "i1", none⟩ ∧
    find_knowledge_base
      ⟨[("工作", ⟨"t1", "i1", none⟩),
        ("工作笔记", ⟨"t2", "i2", none⟩),
        ("工作日志", ⟨"t3", "i3", none⟩)], "工作", {}⟩ (some "工作") =
      Except.ok ("工作", ⟨"t1", "i1", none⟩) :=
  ⟨rfl, exact_match_first
    ⟨[("工作", ⟨"t1", "i1", none⟩),
      ("工作笔记", ⟨"t2", "i2", none⟩),
      ("工作日志", ⟨"t3", "i3", none⟩)], "工作", {}⟩ "工作" ⟨"t1", "i1", none⟩ rfl⟩

/-- C4: when the requested name is not an exact key, exactly one
substring match returns that knowledge base, two or more fail with the
ambiguity error listing the matching names, and zero fail with the
not-found error listing all configured names. -/
theorem fuzzy_resolution (config : Config) (name : String)
    (h : List.lookup name config.knowledge_bases = none) :
    (∀ m, matchesOf config name = [m] →
        find_knowledge_base config (some name) = Except.ok m) ∧
    (matchesOf config name = [] →
        find_knowledge_base config (some name) =
          Except.error (KBError.not_found name (joinedNames config.knowledge_bases))) ∧
    (∀ m1 m2 ms, matchesOf config name = m1 :: m2 :: ms →
        find_knowledge_base config (some name) =
          Except.error (KBError.ambiguous name (joinedNames (matchesOf config name)))) := by
  unfold find_knowledge_base
  simp only [Option.getD_some]
  rw [h]
  simp only
  refine ⟨?_, ?_, ?_⟩
  · intro m hm; rw [hm]
  · intro hm; rw [hm]
  · intro m1 m2 ms hm; rw [hm]

/-- Witness for C4: one-match, two-match and zero-match lookups on a
three-entry configuration. -/
theorem fuzzy_resolution_witness :
    find_knowledge_base
      ⟨[("工作笔记", ⟨"t1", "i1", none⟩),
        ("生活笔记", ⟨"t2", "i2", none⟩),
        ("旅游", ⟨"t3", "i3", none⟩)], "旅游", {}⟩ (some "工作") =
      Except.ok ("工作笔记", ⟨"t1", "i1", none⟩) ∧
    find_knowledge_base
      ⟨[("工作笔记", ⟨"t1", "i1", none⟩),
        ("生活笔记", ⟨"t2", "i2", none⟩),
        ("旅游", ⟨"t3", "i3", none⟩)], "旅游", {}⟩ (some "笔记") =
      Except.error (KBError.ambiguous "笔记" "工作笔记, 生活笔记") ∧
    find_knowledge_base
      ⟨[("工作笔记", ⟨"t1", "i1", none⟩),
        ("生活笔记", ⟨"t2", "i2", none⟩),
        ("旅游", ⟨"t3", "i3", none⟩)], "旅游", {}⟩ (some "不存在") =
      Except.error (KBError.not_found "不存在" "工作笔记, 生活笔记, 旅游") :=
  ⟨(fuzzy_resolution
      ⟨[("工作笔记", ⟨"t1", "i1", none⟩),
        ("生活笔记", ⟨"t2", "i2", none⟩),
        ("旅游", ⟨"t3", "i3", none⟩)], "旅游", {}⟩ "工作" rfl).1
      ("工作笔记", ⟨"t1", "i1", none⟩) rfl,
   (fuzzy_resolution
      ⟨[("工作笔记", ⟨"t1", "i1", none⟩),
        ("生活笔记", ⟨"t2", "i2", none⟩),
        ("旅游", ⟨"t3", "i3", none⟩)], "旅游", {}⟩ "笔记" rfl).2.2
      ("工作笔记", ⟨"t1", "i1", none⟩) ("生活笔记", ⟨"t2", "i2", none⟩) [] rfl,
   (fuzzy_resolution
      ⟨[("工作笔记", ⟨"t1", "i1", none⟩),
        ("生活笔记", ⟨"t2", "i2", none⟩),
        ("旅游", ⟨"t3", "i3", none⟩)], "旅游", {}⟩ "不存在" rfl).2.1 rfl⟩

/-- An empty requested name never hits a key when no configured name is
empty. -/
theorem lookup_empty_of_no_empty_key (kbs : List (String × KnowledgeBase))
    (h : ∀ p ∈ kbs, p.1 ≠ "") : List.lookup "" kbs = none := by
  induction kbs with
  | nil => rfl
  | cons p rest ih =>
    have hp : p.1 ≠ "" := h p (List.mem_cons_self p rest)
    have hne : ("" == p.1) = false := by
      rw [beq_eq_false_iff_ne]
      exact fun he => hp he.symm
    rw [List.lookup, hne]
    · exact ih (fun q hq => h q (List.mem_cons_of_mem p hq))

/-- The empty string is a substring of every string. -/
theorem strContainsSub_empty (hay : String) : strContainsSub hay "" = true := by
  unfold strContainsSub
  simp [ List.nil_infix]

/-- The empty requested name fuzzy-matches every configured entry. -/
theorem matchesOf_empty (config : Config) :
    matchesOf config "" = config.knowledge_bases := by
  unfold matchesOf
  rw [List.filter_eq_self]
  intro a _
  exact strContainsSub_empty a.1

/-- C10: with no empty configured name the empty requested name never
exact-matches and fuzzy-matches everything, so resolution returns the
sole knowledge base when one is configured and fails with the ambiguity
error listing all configured names when two or more are. -/
theorem empty_name_resolution (config : Config)
    (h : ∀ p ∈ config.knowledge_bases, p.1 ≠ "") :
    List.lookup "" config.knowledge_bases = none ∧
    matchesOf config "" = config.knowledge_bases ∧
    (∀ p, config.knowledge_bases = [p] →
        find_knowledge_base config (some "") = Except.ok p) ∧
    (∀ p q rest, config.knowledge_bases = p :: q :: rest →
        find_knowledge_base config (some "") =
          Except.error (KBError.ambiguous "" (joinedNames config.knowledge_bases))) := by
  have hlk := lookup_empty_of_no_empty_key config.knowledge_bases h
  have hm := matchesOf_empty config
  refine ⟨hlk, hm, ?_, ?_⟩
  · intro p hp
    unfold find_knowledge_base
    simp only [Option.getD_some]
    rw [hlk]
    simp only
    rw [hm, hp]
  · intro p q rest hpq
    unfold find_knowledge_base
    simp only [Option.getD_some]
    rw [hlk]
    simp only
    rw [hm, hpq]

/-- Witness for C10: the empty name resolves to the sole entry of a
one-entry configuration and is ambiguous over a two-entry one. -/
theorem empty_name_resolution_witness :
    find_knowledge_base ⟨[("笔记", ⟨"t", "i", none⟩)], "笔记", {}⟩ (some "") =
      Except.ok ("笔记", ⟨"t", "i", none⟩) ∧
    find_knowledge_base
      ⟨[("甲", ⟨"t1", "i1", none⟩), ("乙", ⟨"t2", "i2", none⟩)], "甲", {}⟩ (some "") =
      Except.error (KBError.ambiguous "" "甲, 乙") :=
  ⟨(empty_name_resolution ⟨[("笔记", ⟨"t", "i", none⟩)], "笔记", {}⟩
      (by decide)).2.2.1 ("笔记", ⟨"t", "i", none⟩) rfl,
   (empty_name_resolution
      ⟨[("甲", ⟨"t1", "i1", none⟩), ("乙", ⟨"t2", "i2", none⟩)], "甲", {}⟩
      (by decide)).2.2.2 ("甲", ⟨"t1", "i1", none⟩) ("乙", ⟨"t2", "i2", none⟩) [] rfl⟩

/-- A key the lookup finds is among the dictionary's keys. -/
theorem any_key_of_jget (fields : List (String × Json)) (key : String) :
    ∀ v, jget fields key = some v → fields.any (fun p => p.1 == key) = true := by
  induction fields with
  | nil => intro v h; simp [jget] at h
  | cons p rest ih =>
    intro v h
    obtain ⟨k, w⟩ := p
    rw [jget] at h
    rw [List.any_cons]
    cases hrec : jget rest key with
    | some w2 =>
      rw [ih w2 hrec]
      simp
    | none =>
      rw [hrec] at h
      simp only at h
      by_cases hk : (k == key) = true
      · simp [hk]
      · rw [if_neg (by simpa using hk)] at h
        cases h

/-- A successful recall decode yields one record per element. -/
theorem recallFrom_length : ∀ (items : List Json) (rs : List RecallResult),
    recallFrom items = some rs → rs.length = items.length := by
  intro items
  induction items with
  | nil =>
    intro rs h
    simp only [recallFrom] at h
    cases h
    rfl
  | cons x rest ih =>
    intro rs h
    simp only [recallFrom] at h
    cases hx : RecallResult.from_api x with
    | none => rw [hx] at h; simp at h
    | some r =>
      rw [hx] at h
      simp only at h
      cases hrec : recallFrom rest with
      | none => rw [hrec] at h; simp at h
      | some rs2 =>
        rw [hrec] at h
        simp only [Option.map] at h
        cases h
        simp [ih rs2 hrec]

/-- C7 (amended): an element with no fields decodes to the permissive
defaults; a response object without a `data` member, or whose `data`
object has no `results` member, yields the empty list; a `data.results`
array whose elements all decode yields one record per element.  (The
claim's further assertion that every response lacking the `data.results`
shape yields the empty list fails: see the counterexample.) -/
theorem recall_decoding :
    (RecallResult.from_api (Json.obj []) =
      some ⟨Json.str "", Json.str "", Json.str "", Json.num 0, Json.str "NOTE", Json.str ""⟩) ∧
    (∀ fields, (fields.any (fun p => p.1 == "data")) = false →
      recallResults (Json.obj fields) = some []) ∧
    (∀ fields dfields, jget fields "data" = some (Json.obj dfields) →
      (dfields.any (fun p => p.1 == "results")) = false →
      recallResults (Json.obj fields) = some []) ∧
    (∀ fields dfields items rs, jget fields "data" = some (Json.obj dfields) →
      jget dfields "results" = some (Json.arr items) →
      recallFrom items = some rs →
      recallResults (Json.obj fields) = some rs ∧ rs.length = items.length) := by
  refine ⟨rfl, ?_, ?_, ?_⟩
  · intro fields h
    unfold recallResults
    simp only [pyContainsKey, h]
  · intro fields dfields hdata hres
    unfold recallResults
    simp only [pyContainsKey, any_key_of_jget fields "data" _ hdata]
    simp only [pyIndexStr, hdata]
    simp only [pyContainsKey, hres]
  · intro fields dfields items rs hdata hres hfrom
    constructor
    · unfold recallResults
      simp only [pyContainsKey, any_key_of_jget fields "data" _ hdata]
      simp only [pyIndexStr, hdata]
      simp only [pyContainsKey, any_key_of_jget dfields "results" _ hres]
      simp only [pyIndexStr, hres]
      simp only [pyIter]
      exact hfrom
    · exact recallFrom_length items rs hfrom

/-- Witness for C7: a one-element `data.results` response decodes to one
record with the defaults filled in. -/
theorem recall_decoding_witness :
    recallResults (Json.obj [("data", Json.obj [("results",
        Json.arr [Json.obj [("id", Json.str "n1")]])])]) =
      some [⟨Json.str "n1", Json.str "", Json.str "", Json.num 0,
        Json.str "NOTE", Json.str ""⟩] ∧
    ([⟨Json.str "n1", Json.str "", Json.str "", Json.num 0, Json.str "NOTE",
        Json.str ""⟩] : List RecallResult).length =
      ([Json.obj [("id", Json.str "n1")]] : List Json).length :=
  recall_decoding.2.2.2
    [("data", Json.obj [("results", Json.arr [Json.obj [("id", Json.str "n1")]])])]
    [("results", Json.arr [Json.obj [("id", Json.str "n1")]])]
    [Json.obj [("id", Json.str "n1")]]
    [⟨Json.str "n1", Json.str "", Json.str "", Json.num 0, Json.str "NOTE", Json.str ""⟩]
    rfl rfl rfl

/-- C7 counterexample: the response `\x7b"data": 5\x7d` lacks the
`data.results` shape, yet recall does not return an empty sequence: the
membership test `"results" in response["data"]` raises a `TypeError`
(modelled by `none`), contradicting the claim's "empty sequence rather
than raising". -/
theorem recall_shape_counterexample :
    recallResults (Json.obj [("data", Json.num 5)]) = none ∧
    recallResults (Json.obj [("data", Json.num 5)]) ≠ some [] :=
  ⟨rfl, fun h => Option.noConfusion h⟩

/-- C8 (amended): for both operations an HTTP 401 maps to an `ApiError`
with code 401 and the fixed message `Token无效，请检查配置`, and an HTTP
429 to code 429 with the fixed message
`超出API调用限制(QPS=2)，请稍后重试` (the spec's English messages are
translations of these), whatever the body holds — the checks run in the
documented precedence before any payload is decoded. -/
theorem http_error_mapping :
    (∀ body, recallOp (TransportOutcome.response 401 body) = Except.error ⟨401, msg401⟩) ∧
    (∀ body, recallOp (TransportOutcome.response 429 body) = Except.error ⟨429, msg429⟩) ∧
    (∀ body, searchOp (TransportOutcome.response 401 body) = Except.error ⟨401, msg401⟩) ∧
    (∀ body, searchOp (TransportOutcome.response 429 body) = Except.error ⟨429, msg429⟩) ∧
    (recallOp TransportOutcome.timeout = Except.error ⟨0, msgTimeout⟩) ∧
    (searchOp TransportOutcome.timeout = Except.error ⟨0, msgTimeout⟩) ∧
    (∀ e, recallOp (TransportOutcome.request_error e) = Except.error ⟨0, msgNetwork e⟩) ∧
    (∀ e, searchOp (TransportOutcome.request_error e) = Except.error ⟨0, msgNetwork e⟩) ∧
    (∀ s body, 400 ≤ s → s ≠ 401 → s ≠ 429 →
      recallOp (TransportOutcome.response s body) = Except.error ⟨s, body⟩ ∧
      searchOp (TransportOutcome.response s body) = Except.error ⟨s, body⟩) := by
  refine ⟨fun b => rfl, fun b => rfl, fun b => rfl, fun b => rfl, rfl, rfl,
    fun e => rfl, fun e => rfl, ?_⟩
  intro s body h1 h2 h3
  have e401 : (s == 401) = false := by simp [h2]
  have e429 : (s == 429) = false := by simp [h3]
  constructor
  · simp [recallOp, postOutcome, e401, e429, h1]
  · simp [searchOp, streamPostOutcome, e401, e429, h1]

/-- Witness for C8: a status-500 response maps to its own code with the
raw body as the message, for both operations. -/
theorem http_error_mapping_witness :
    recallOp (TransportOutcome.response 500 "boom") = Except.error ⟨500, "boom"⟩ ∧
    searchOp (TransportOutcome.response 500 "boom") = Except.error ⟨500, "boom"⟩ :=
  http_error_mapping.2.2.2.2.2.2.2.2 500 "boom" (by decide) (by decide) (by decide)

/-- C8 counterexample: the fixed messages of the code are the Chinese
strings, not the English strings quoted by the claim. -/
theorem http_error_message_counterexample :
    postOutcome (TransportOutcome.response 401 "") =
      Except.error ⟨401, "Token无效，请检查配置"⟩ ∧
    msg401 ≠ "invalid token, check configuration" ∧
    msg429 ≠ "rate limit exceeded (2 requests/sec), retry later" :=
  ⟨rfl, by decide, by decide⟩

/-- Appending three lines to a non-empty line list joins with newlines. -/
theorem joinLines_append_three (ls : List String) (a b c : String) : ls ≠ [] →
    joinLines (ls ++ [a, b, c]) = joinLines ls ++ "\n" ++ a ++ "\n" ++ b ++ "\n" ++ c := by
  induction ls with
  | nil => intro h; exact absurd rfl h
  | cons l rest ih =>
    intro _
    cases rest with
    | nil =>
      show joinLines [l, a, b, c] = joinLines [l] ++ "\n" ++ a ++ "\n" ++ b ++ "\n" ++ c
      simp [joinLines, String.append_assoc]
    | cons l2 rest2 =>
      have e1 : joinLines (l :: l2 :: (rest2 ++ [a, b, c])) =
          l ++ "\n" ++ joinLines (l2 :: (rest2 ++ [a, b, c])) := rfl
      have e2 : joinLines (l :: l2 :: rest2) = l ++ "\n" ++ joinLines (l2 :: rest2) := rfl
      calc joinLines ((l :: l2 :: rest2) ++ [a, b, c])
          = l ++ "\n" ++ joinLines ((l2 :: rest2) ++ [a, b, c]) := by
            simp only [List.cons_append]; exact e1
        _ = l ++ "\n" ++ (joinLines (l2 :: rest2) ++ "\n" ++ a ++ "\n" ++ b ++ "\n" ++ c) := by
            rw [ih (by simp)]
        _ = (l ++ "\n" ++ joinLines (l2 :: rest2)) ++ "\n" ++ a ++ "\n" ++ b ++ "\n" ++ c := by
            simp [String.append_assoc]
        _ = joinLines (l :: l2 :: rest2) ++ "\n" ++ a ++ "\n" ++ b ++ "\n" ++ c := by rw [e2]

/-- C9: the formatter renders the reasoning section exactly when the
reasoning text is present and non-empty — an absent and a present-but-
empty reasoning text produce identical output, and a non-empty one
appends exactly the reasoning section. -/
theorem thinking_section_rendering :
    (∀ r : SearchResult, (r.thinking = none ∨ r.thinking = some "") →
      format_search_result r = format_search_result ⟨r.answer, r.references, none⟩) ∧
    (∀ (r : SearchResult) (s : String), r.thinking = some s → s ≠ "" →
      format_search_result r =
        (format_search_result ⟨r.answer, r.references, none⟩).map
          (fun t => t ++ "\n## 思考过程\n\n" ++ s ++ "\n")) := by
  constructor
  · intro r hr
    obtain ⟨ans, refs, th⟩ := r
    rcases hr with h | h <;> subst h <;> simp [format_search_result]
  · intro r s hth hs
    obtain ⟨ans, refs, th⟩ := r
    subst hth
    simp only [format_search_result]
    cases hl : (if refs.isEmpty then some ["## 答案\n", ans, ""]
        else (refLinesFrom 1 refs).map
          (fun rl => ["## 答案\n", ans, ""] ++ ["## 引用来源\n"] ++ rl ++ [""])) with
    | none => rfl
    | some lines1 =>
      have hne : lines1 ≠ [] := by
        by_cases he : refs.isEmpty
        · rw [if_pos he] at hl
          cases hl
          simp
        · rw [if_neg he] at hl
          cases hrl : refLinesFrom 1 refs with
          | none => rw [hrl] at hl; simp at hl
          | some rl =>
            rw [hrl] at hl
            cases hl
            simp
      simp only
      rw [if_neg hs]
      rw [joinLines_append_three lines1 "## 思考过程\n" s "" hne]
      have fuse1 : (joinLines lines1 ++ "\n" ++ "## 思考过程\n" ++ "\n" ++ s ++ "\n" ++ "") =
          joinLines lines1 ++ "\n## 思考过程\n\n" ++ s ++ "\n" := by
        rw [String.append_empty]
        rw [String.append_assoc (joinLines lines1) "\n" "## 思考过程\n"]
        rw [show ("\n" ++ "## 思考过程\n" : String) = "\n## 思考过程\n" from rfl]
        rw [String.append_assoc (joinLines lines1) "\n## 思考过程\n" "\n"]
        rw [show ("\n## 思考过程\n" ++ "\n" : String) = "\n## 思考过程\n\n" from rfl]
      rw [fuse1]
      rfl

/-- Witness for C9: a non-empty reasoning text appends the reasoning
section to the output without one. -/
theorem thinking_section_rendering_witness :
    format_search_result ⟨"回答", [], some "思路"⟩ =
      (format_search_result ⟨"回答", [], none⟩).map
        (fun t => t ++ "\n## 思考过程\n\n" ++ "思路" ++ "\n") :=
  thinking_section_rendering.2 ⟨"回答", [], some "思路"⟩ "思路" rfl (by decide)

end Biji
